import Mathlib

/-
Shallow embedding of the falling-sand cave simulation
(src/rust/src/bin/day14.rs) and verification of its specification.

Conventions of the embedding:
- `HashSet<Pos>` is modelled as a duplicate-free `List Pos`; `insert` is
  guarded (`insertPos`), so `List.length` models `HashSet::len`.
- Rust panics (`unreachable!()` on a diagonal segment, indexing `rs[0]` of an
  empty polyline, `.max().unwrap()` on an empty rock set) are modelled by
  `Option`: `none` means the construction aborts and no cave is produced.
- The two potentially unbounded loops (the falling loop inside `pour_sand`
  and the driver loop in `solve`) take explicit fuel; running out of fuel
  yields `none` / `FallResult.outOfFuel`, which never corresponds to any
  behaviour of the Rust code (the theorems below supply sufficient fuel).
-/

namespace Day14

/-- Integer lattice point, `y` grows downward; mirrors `struct Pos`. -/
structure Pos where
  x : Int
  y : Int
deriving DecidableEq, Repr, Inhabited

/-- Mirrors `Pos::translate` (the Rust mutation, as a pure function). -/
def Pos.translate (p : Pos) (dx dy : Int) : Pos :=
  { x := p.x + dx, y := p.y + dy }

/-- Guarded insertion into a duplicate-free list: models `HashSet::insert`. -/
def insertPos (p : Pos) (s : List Pos) : List Pos :=
  if p ∈ s then s else p :: s

/-- Mirrors `struct Cave`. -/
structure Cave where
  rocks : List Pos
  rocks_max_y : Int
  sand : List Pos
  floor_y : Option Int
deriving DecidableEq, Repr, Inhabited

/-- Inclusive integer range `s..=e` (empty when `e < s`), mirroring Rust's
ascending `for v in s..=e`. -/
def intRange (s e : Int) : List Int :=
  (List.range (e - s + 1).toNat).map (fun i => s + i)

/-- Rasterization of one orthogonal segment from `pos` to `r`; mirrors the
`match (pos.x - r.x, pos.y - r.y)` in `Cave::from_scan`.  The first arm
`(_dx, 0)` (horizontal) is tried first, then `(0, _dy)` (vertical); a
diagonal pair hits `unreachable!()`, modelled as `none`. -/
def segmentPoints (pos r : Pos) : Option (List Pos) :=
  if pos.y - r.y = 0 then
    some ((intRange (if pos.x > r.x then r.x else pos.x)
                    (if pos.x > r.x then pos.x else r.x)).map
            (fun x => { x := x, y := pos.y }))
  else if pos.x - r.x = 0 then
    some ((intRange (if pos.y > r.y then r.y else pos.y)
                    (if pos.y > r.y then pos.y else r.y)).map
            (fun y => { x := pos.x, y := y }))
  else
    none

/-- Walks the segments of one polyline, accumulating rock cells; mirrors the
inner `for r in rs.iter().skip(1)` loop with `pos` as the running point. -/
def rasterPath (pos : Pos) (rest : List Pos) (acc : List Pos) : Option (List Pos) :=
  match rest with
  | [] => some acc
  | r :: rs =>
    match segmentPoints pos r with
    | none => none
    | some pts => rasterPath r rs (pts.foldl (fun a p => insertPos p a) acc)

/-- One whole polyline: `rs[0]` is indexed unconditionally in the Rust code,
so an empty polyline panics (`none`). -/
def rasterPathFull (rs : List Pos) (acc : List Pos) : Option (List Pos) :=
  match rs with
  | [] => none
  | p0 :: rest => rasterPath p0 rest acc

/-- The outer `for Path { rocks: rs } in scan` loop. -/
def rasterScan (scan : List (List Pos)) (acc : List Pos) : Option (List Pos) :=
  match scan with
  | [] => some acc
  | path :: rest =>
    match rasterPathFull path acc with
    | none => none
    | some acc' => rasterScan rest acc'

/-- `rocks.iter().map(|r| r.y).max()`: `none` on the empty set (the Rust
`unwrap` panics there). -/
def maxYOf (rocks : List Pos) : Option Int :=
  match rocks with
  | [] => none
  | p :: ps => some (ps.foldl (fun m q => max m q.y) p.y)

/-- Mirrors `Cave::from_scan`.  `none` models the three panic paths: empty
polyline, diagonal segment, no rock cells at all. -/
def Cave.from_scan (scan : List (List Pos)) : Option Cave :=
  match rasterScan scan [] with
  | none => none
  | some rocks =>
    match maxYOf rocks with
    | none => none
    | some m =>
      some { rocks := rocks, rocks_max_y := m, sand := [], floor_y := none }

/-- Mirrors `Cave::with_floor`: sets `floor_y`, keeps every other field
(including the sand set) via `..self`. -/
def Cave.with_floor (c : Cave) : Cave :=
  { c with floor_y := some (c.rocks_max_y + 2) }

/-- Mirrors `Cave::free`. -/
def Cave.free (c : Cave) (pos : Pos) : Bool :=
  !(decide (pos ∈ c.sand) || decide (pos ∈ c.rocks))
    && ((c.floor_y.map (fun fy => decide (fy ≠ pos.y))).getD true)

/-- Result of the falling loop inside `pour_sand`. -/
inductive FallResult where
  | atRest (p : Pos) : FallResult
  | lost : FallResult
  | outOfFuel : FallResult
deriving DecidableEq, Repr

/-- The `loop` body of `Cave::pour_sand`, with fuel.  Each iteration first
translates down by `(0, 1)`, tests the depth bound, then tries the three
candidate cells by the successive translates of the Rust code; if none is
free the last translate `(-1, -1)` returns to the current cell, which is the
rest position. -/
def Cave.fall (c : Cave) (maxY : Int) : Pos → Nat → FallResult
  | _, 0 => .outOfFuel
  | p, fuel + 1 =>
    let p1 := p.translate 0 1
    if p1.y > maxY then
      (if c.floor_y.isSome then .atRest p1 else .lost)
    else if c.free p1 then
      c.fall maxY p1 fuel
    else
      let p2 := p1.translate (-1) 0
      if c.free p2 then
        c.fall maxY p2 fuel
      else
        let p3 := p2.translate 2 0
        if c.free p3 then
          c.fall maxY p3 fuel
        else
          .atRest (p3.translate (-1) (-1))

/-- Mirrors `Cave::pour_sand`: `some (true, c')` when a grain came to rest
(inserted into the sand set), `some (false, c)` when the grain was rejected
at the source or lost; `none` only on fuel exhaustion. -/
def Cave.pour_sand (c : Cave) (fuel : Nat) : Option (Bool × Cave) :=
  if ({ x := 500, y := 0 } : Pos) ∈ c.sand then
    some (false, c)
  else
    match c.fall (c.floor_y.getD c.rocks_max_y) { x := 500, y := 0 } fuel with
    | .atRest p => some (true, { c with sand := insertPos p c.sand })
    | .lost => some (false, c)
    | .outOfFuel => none

/-- Mirrors the driver `loop { if !cave.pour_sand() { break cave.sand.len() } }`
of `solve`, with fuel for the loop itself (`lf`) and for each pour (`pf`). -/
def Cave.run (c : Cave) (pf : Nat) : Nat → Option (Nat × Cave)
  | 0 => none
  | lf + 1 =>
    match c.pour_sand pf with
    | none => none
    | some (false, c') => some (c'.sand.length, c')
    | some (true, c') => c'.run pf lf

/-- Mirrors `solve`: build the cave, run the open policy, then continue on the
same cave with a floor; `none` models a construction panic or fuel exhaustion. -/
def solve (input : List (List Pos)) (pf lf : Nat) : Option (Nat × Nat) :=
  match Cave.from_scan input with
  | none => none
  | some cave =>
    match cave.run pf lf with
    | none => none
    | some (p1, cave1) =>
      match (cave1.with_floor).run pf lf with
      | none => none
      | some (p2, _) => some (p1, p2)

/-- The example scan of the tests, already parsed:
`498,4 -> 498,6 -> 496,6` and `503,4 -> 502,4 -> 502,9 -> 494,9`. -/
def exampleScan : List (List Pos) :=
  [[{ x := 498, y := 4 }, { x := 498, y := 6 }, { x := 496, y := 6 }],
   [{ x := 503, y := 4 }, { x := 502, y := 4 }, { x := 502, y := 9 },
    { x := 494, y := 9 }]]

/-- The cave built from the example scan. -/
def exCave : Cave := (Cave.from_scan exampleScan).getD default

/-- The final cave of the open-policy run on the example. -/
def exCaveAfterOpen : Cave := ((exCave.run 20 200).getD (0, default)).2

/-- A scan placing a single rock cell directly on the sand source `(500, 0)`
(a degenerate segment whose two endpoints coincide). -/
def scanRockOnSource : List (List Pos) :=
  [[{ x := 500, y := 0 }, { x := 500, y := 0 }]]

/-- A scan with a single-point polyline next to an ordinary two-point one. -/
def scanSinglePoint : List (List Pos) :=
  [[{ x := 0, y := 0 }], [{ x := 5, y := 5 }, { x := 5, y := 6 }]]

/-- Fuel that always suffices for the falling loop of one `pour_sand` call:
the grain's `y` grows by one per iteration and the loop stops once `y`
exceeds `floor_y.unwrap_or(rocks_max_y)`. -/
def pourFuelOf (c : Cave) : Nat :=
  ((c.floor_y.getD c.rocks_max_y) + 1).toNat + 1

/-- All cells at which a grain can come to rest under the open policy:
depth `0 ≤ y`, strictly above the loss threshold (`y + 1 ≤ m`), and within
the cone `|x - 500| ≤ y` reachable from the source. -/
def triangle (m : Int) : Finset Pos :=
  (Finset.Icc (0 : Int) (m - 1)).biUnion
    (fun y => (Finset.Icc (500 - y) (500 + y)).image (fun x => { x := x, y := y }))

/-- Number of still-unoccupied candidate rest cells; strictly decreases with
every grain that settles under the open policy. -/
def freeCount (c : Cave) : Nat :=
  ((triangle c.rocks_max_y).filter (fun q => q ∉ c.sand)).card

/-- Boolean disjointness of two cell sets. -/
def disjointB (a b : List Pos) : Bool :=
  a.all (fun p => decide (p ∉ b))

/-- Two consecutive polyline points disagreeing in both coordinates. -/
def diagPair (a b : Pos) : Bool :=
  decide (a.x ≠ b.x) && decide (a.y ≠ b.y)

/-- Some pair of consecutive points of the polyline is diagonal. -/
def hasDiag : List Pos → Bool
  | a :: b :: t => diagPair a b || hasDiag (b :: t)
  | _ => false

/-! ## Basic lemmas -/

@[simp]
lemma Pos.mk_eta (p : Pos) : ({ x := p.x, y := p.y } : Pos) = p := rfl

lemma mem_insertPos (p q : Pos) (s : List Pos) :
    q ∈ insertPos p s ↔ q = p ∨ q ∈ s := by
  unfold insertPos
  by_cases h : p ∈ s
  · rw [if_pos h]
    constructor
    · exact Or.inr
    · rintro (rfl | hq)
      · exact h
      · exact hq
  · rw [if_neg h]
    simp [List.mem_cons]

lemma length_insertPos (p : Pos) (s : List Pos) :
    s.length ≤ (insertPos p s).length := by
  unfold insertPos
  split
  · exact Nat.le_refl _
  · exact Nat.le_succ _

lemma insertPos_of_not_mem {p : Pos} {s : List Pos} (h : p ∉ s) :
    insertPos p s = p :: s := if_neg h

lemma free_not_mem_sand {c : Cave} {q : Pos} (h : c.free q = true) :
    q ∉ c.sand := by
  unfold Cave.free at h
  simp only [Bool.and_eq_true, Bool.not_eq_true', Bool.or_eq_false_iff,
    decide_eq_false_iff_not] at h
  exact h.1.1

lemma free_not_mem_rocks {c : Cave} {q : Pos} (h : c.free q = true) :
    q ∉ c.rocks := by
  unfold Cave.free at h
  simp only [Bool.and_eq_true, Bool.not_eq_true', Bool.or_eq_false_iff,
    decide_eq_false_iff_not] at h
  exact h.1.2

/-- One unfolding of the falling loop with the four candidate cells written
out: the translate chain of the source visits, in order, straight-down,
down-left, down-right, and (when all three are blocked) returns to the
current cell. -/
lemma fall_succ (c : Cave) (maxY : Int) (p : Pos) (fuel : Nat) :
    c.fall maxY p (fuel + 1) =
      if maxY < p.y + 1 then
        (if c.floor_y.isSome then .atRest { x := p.x, y := p.y + 1 } else .lost)
      else if c.free { x := p.x, y := p.y + 1 } then
        c.fall maxY { x := p.x, y := p.y + 1 } fuel
      else if c.free { x := p.x - 1, y := p.y + 1 } then
        c.fall maxY { x := p.x - 1, y := p.y + 1 } fuel
      else if c.free { x := p.x + 1, y := p.y + 1 } then
        c.fall maxY { x := p.x + 1, y := p.y + 1 } fuel
      else .atRest p := by
  have e1 : p.translate 0 1 = ({ x := p.x, y := p.y + 1 } : Pos) := by
    simp [Pos.translate]
  have e2 : ({ x := p.x, y := p.y + 1 } : Pos).translate (-1) 0 =
      ({ x := p.x - 1, y := p.y + 1 } : Pos) := by
    simp [Pos.translate]
    ring
  have e3 : ({ x := p.x - 1, y := p.y + 1 } : Pos).translate 2 0 =
      ({ x := p.x + 1, y := p.y + 1 } : Pos) := by
    simp [Pos.translate]
    ring
  have e4 : ({ x := p.x + 1, y := p.y + 1 } : Pos).translate (-1) (-1) = p := by
    simp [Pos.translate]
  simp only [Cave.fall, e1, e2, e3, e4]

/-- The falling loop cannot exhaust its fuel when given more than the number
of rows left above the depth bound: `y` grows by one per iteration. -/
lemma fall_ne_outOfFuel (c : Cave) (maxY : Int) :
    ∀ (fuel : Nat) (p : Pos), (maxY + 1 - p.y).toNat < fuel →
      c.fall maxY p fuel ≠ .outOfFuel := by
  intro fuel
  induction fuel with
  | zero =>
    intro p h
    exact absurd h (by omega)
  | succ n ih =>
    intro p h
    rw [fall_succ]
    by_cases h1 : maxY < p.y + 1
    · rw [if_pos h1]
      split
      · exact fun hc => FallResult.noConfusion hc
      · exact fun hc => FallResult.noConfusion hc
    · rw [if_neg h1]
      have hb : (maxY + 1 - (p.y + 1)).toNat < n := by omega
      split
      · exact ih _ hb
      · split
        · exact ih _ hb
        · split
          · exact ih _ hb
          · exact fun hc => FallResult.noConfusion hc

/-- `pour_sand` with sufficient fuel never reports fuel exhaustion. -/
lemma pour_sand_isSome (c : Cave) (pf : Nat)
    (h : ((c.floor_y.getD c.rocks_max_y) + 1).toNat < pf) :
    (c.pour_sand pf).isSome = true := by
  unfold Cave.pour_sand
  by_cases hs : ({ x := 500, y := 0 } : Pos) ∈ c.sand
  · rw [if_pos hs]
    rfl
  · rw [if_neg hs]
    have hne := fall_ne_outOfFuel c (c.floor_y.getD c.rocks_max_y) pf
      { x := 500, y := 0 }
      (show (c.floor_y.getD c.rocks_max_y + 1 - 0).toNat < pf by omega)
    cases hf : c.fall (c.floor_y.getD c.rocks_max_y) { x := 500, y := 0 } pf with
    | atRest q => rfl
    | lost => rfl
    | outOfFuel => exact absurd hf hne

/-- A `false` result leaves the cave untouched. -/
lemma pour_sand_false {c c' : Cave} {pf : Nat}
    (h : c.pour_sand pf = some (false, c')) : c' = c := by
  unfold Cave.pour_sand at h
  by_cases hs : ({ x := 500, y := 0 } : Pos) ∈ c.sand
  · rw [if_pos hs] at h
    simp at h
    exact h.symm
  · rw [if_neg hs] at h
    cases hf : c.fall (c.floor_y.getD c.rocks_max_y) { x := 500, y := 0 } pf with
    | atRest q => rw [hf] at h; simp at h
    | lost => rw [hf] at h; simp at h; exact h.symm
    | outOfFuel => rw [hf] at h; simp at h

/-- A `true` result inserts exactly one (possibly already present) cell. -/
lemma pour_sand_true {c c' : Cave} {pf : Nat}
    (h : c.pour_sand pf = some (true, c')) :
    ∃ q, c.fall (c.floor_y.getD c.rocks_max_y) { x := 500, y := 0 } pf = .atRest q ∧
      ({ x := 500, y := 0 } : Pos) ∉ c.sand ∧
      c' = { c with sand := insertPos q c.sand } := by
  unfold Cave.pour_sand at h
  by_cases hs : ({ x := 500, y := 0 } : Pos) ∈ c.sand
  · rw [if_pos hs] at h
    simp at h
  · rw [if_neg hs] at h
    cases hf : c.fall (c.floor_y.getD c.rocks_max_y) { x := 500, y := 0 } pf with
    | atRest q =>
      rw [hf] at h
      simp only [Option.some_inj, Prod.mk.injEq, true_and] at h
      exact ⟨q, rfl, hs, h.symm⟩
    | lost => rw [hf] at h; simp at h
    | outOfFuel => rw [hf] at h; simp at h

/-- `pour_sand` never shrinks the sand set. -/
lemma pour_sand_mono {c c' : Cave} {pf : Nat} {b : Bool}
    (h : c.pour_sand pf = some (b, c')) :
    c.sand.length ≤ c'.sand.length := by
  cases b with
  | false => rw [pour_sand_false h]
  | true =>
    obtain ⟨q, _, _, rfl⟩ := pour_sand_true h
    exact length_insertPos q c.sand

/-- Under the open policy a rest position is a fresh cell inside the cone of
cells reachable from the source and strictly above the loss threshold.  The
invariant carried down the loop: the current cell is not settled sand, sits
at depth `≥ 0`, and within `|x - 500| ≤ y`. -/
lemma fall_atRest_open (c : Cave) (maxY : Int) (hf : c.floor_y = none) :
    ∀ (fuel : Nat) (p q : Pos), c.fall maxY p fuel = .atRest q →
      p ∉ c.sand → 0 ≤ p.y → p.x - 500 ≤ p.y → 500 - p.x ≤ p.y →
      q ∉ c.sand ∧ 0 ≤ q.y ∧ q.x - 500 ≤ q.y ∧ 500 - q.x ≤ q.y ∧
        q.y + 1 ≤ maxY := by
  intro fuel
  induction fuel with
  | zero =>
    intro p q hfall
    rw [show c.fall maxY p 0 = .outOfFuel from rfl] at hfall
    exact absurd hfall (fun hc => FallResult.noConfusion hc)
  | succ n ih =>
    intro p q hfall hs h0 h1 h2
    rw [fall_succ] at hfall
    by_cases hgt : maxY < p.y + 1
    · rw [if_pos hgt, hf] at hfall
      simp at hfall
    · rw [if_neg hgt] at hfall
      by_cases f1 : c.free { x := p.x, y := p.y + 1 } = true
      · rw [if_pos f1] at hfall
        exact ih _ q hfall (free_not_mem_sand f1)
          (show (0 : Int) ≤ p.y + 1 by omega)
          (show p.x - 500 ≤ p.y + 1 by omega)
          (show 500 - p.x ≤ p.y + 1 by omega)
      · rw [if_neg f1] at hfall
        by_cases f2 : c.free { x := p.x - 1, y := p.y + 1 } = true
        · rw [if_pos f2] at hfall
          exact ih _ q hfall (free_not_mem_sand f2)
            (show (0 : Int) ≤ p.y + 1 by omega)
            (show p.x - 1 - 500 ≤ p.y + 1 by omega)
            (show 500 - (p.x - 1) ≤ p.y + 1 by omega)
        · rw [if_neg f2] at hfall
          by_cases f3 : c.free { x := p.x + 1, y := p.y + 1 } = true
          · rw [if_pos f3] at hfall
            exact ih _ q hfall (free_not_mem_sand f3)
              (show (0 : Int) ≤ p.y + 1 by omega)
              (show p.x + 1 - 500 ≤ p.y + 1 by omega)
              (show 500 - (p.x + 1) ≤ p.y + 1 by omega)
          · rw [if_neg f3] at hfall
            injection hfall with hq
            subst hq
            exact ⟨hs, h0, h1, h2, by omega⟩

/-- Whatever the policy, a grain never comes to rest on a rock, provided the
starting cell is rock-free and no rock lies below the depth bound. -/
lemma fall_atRest_not_rock (c : Cave) (maxY : Int)
    (hbound : ∀ r ∈ c.rocks, r.y ≤ maxY) :
    ∀ (fuel : Nat) (p q : Pos), c.fall maxY p fuel = .atRest q →
      p ∉ c.rocks → q ∉ c.rocks := by
  intro fuel
  induction fuel with
  | zero =>
    intro p q hfall
    rw [show c.fall maxY p 0 = .outOfFuel from rfl] at hfall
    exact absurd hfall (fun hc => FallResult.noConfusion hc)
  | succ n ih =>
    intro p q hfall hp
    rw [fall_succ] at hfall
    by_cases hgt : maxY < p.y + 1
    · rw [if_pos hgt] at hfall
      cases hfl : c.floor_y.isSome with
      | true =>
        rw [hfl, if_pos rfl] at hfall
        injection hfall with hq
        subst hq
        intro hmem
        have := hbound _ hmem
        simp at this
        omega
      | false =>
        rw [hfl] at hfall
        simp at hfall
    · rw [if_neg hgt] at hfall
      by_cases f1 : c.free { x := p.x, y := p.y + 1 } = true
      · rw [if_pos f1] at hfall
        exact ih _ q hfall (free_not_mem_rocks f1)
      · rw [if_neg f1] at hfall
        by_cases f2 : c.free { x := p.x - 1, y := p.y + 1 } = true
        · rw [if_pos f2] at hfall
          exact ih _ q hfall (free_not_mem_rocks f2)
        · rw [if_neg f2] at hfall
          by_cases f3 : c.free { x := p.x + 1, y := p.y + 1 } = true
          · rw [if_pos f3] at hfall
            exact ih _ q hfall (free_not_mem_rocks f3)
          · rw [if_neg f3] at hfall
            injection hfall with hq
            subst hq
            exact hp

/-! ## Termination of the open-policy run -/

lemma mem_triangle (m : Int) (q : Pos) :
    q ∈ triangle m ↔
      0 ≤ q.y ∧ q.y + 1 ≤ m ∧ q.x - 500 ≤ q.y ∧ 500 - q.x ≤ q.y := by
  unfold triangle
  simp only [Finset.mem_biUnion, Finset.mem_image, Finset.mem_Icc]
  constructor
  · rintro ⟨y, ⟨hy0, hy1⟩, x, ⟨hx0, hx1⟩, rfl⟩
    exact ⟨hy0, show y + 1 ≤ m by omega, show x - 500 ≤ y by omega,
      show 500 - x ≤ y by omega⟩
  · rintro ⟨h0, h1, h2, h3⟩
    exact ⟨q.y, ⟨h0, by omega⟩, q.x, ⟨by omega, by omega⟩, rfl⟩

/-- Settling a fresh cell of the triangle strictly shrinks the count of
unoccupied candidate rest cells. -/
lemma freeCount_insert (c : Cave) (q : Pos) (hq : q ∉ c.sand)
    (ht : q ∈ triangle c.rocks_max_y) :
    freeCount { c with sand := insertPos q c.sand } + 1 = freeCount c := by
  unfold freeCount
  rw [insertPos_of_not_mem hq]
  have hfilter :
      (triangle c.rocks_max_y).filter (fun p => p ∉ q :: c.sand) =
        ((triangle c.rocks_max_y).filter (fun p => p ∉ c.sand)).erase q := by
    ext p
    simp only [Finset.mem_filter, Finset.mem_erase, List.mem_cons]
    tauto
  have hmem : q ∈ (triangle c.rocks_max_y).filter (fun p => p ∉ c.sand) :=
    Finset.mem_filter.mpr ⟨ht, hq⟩
  rw [hfilter, Finset.card_erase_of_mem hmem]
  have : 0 < ((triangle c.rocks_max_y).filter (fun p => p ∉ c.sand)).card :=
    Finset.card_pos.mpr ⟨q, hmem⟩
  omega

/-- The open-policy driver loop terminates: with ample per-pour fuel and more
loop fuel than unoccupied candidate cells, `run` reaches a `false` pour. -/
lemma run_terminates (pf : Nat) :
    ∀ (lf : Nat) (c : Cave), c.floor_y = none →
      ((c.floor_y.getD c.rocks_max_y) + 1).toNat < pf →
      freeCount c < lf → (c.run pf lf).isSome = true := by
  intro lf
  induction lf with
  | zero =>
    intro c _ _ h
    omega
  | succ n ih =>
    intro c hfl hpf hcount
    have hsome := pour_sand_isSome c pf hpf
    cases hp : c.pour_sand pf with
    | none => rw [hp] at hsome; simp at hsome
    | some bc =>
      obtain ⟨b, c'⟩ := bc
      cases b with
      | false =>
        simp only [Cave.run, hp]
        rfl
      | true =>
        simp only [Cave.run, hp]
        obtain ⟨q, hfall, hs, rfl⟩ := pour_sand_true hp
        have hq := fall_atRest_open c (c.floor_y.getD c.rocks_max_y) hfl pf
          { x := 500, y := 0 } q hfall hs (show (0 : Int) ≤ 0 by omega)
          (show (500 : Int) - 500 ≤ 0 by omega)
          (show (500 : Int) - 500 ≤ 0 by omega)
        have ht : q ∈ triangle c.rocks_max_y := by
          rw [mem_triangle]
          have hmax : c.floor_y.getD c.rocks_max_y = c.rocks_max_y := by
            rw [hfl]; rfl
          rw [hmax] at hq
          exact ⟨hq.2.1, hq.2.2.2.2, hq.2.2.1, hq.2.2.2.1⟩
        have hdec := freeCount_insert c q hq.1 ht
        exact ih _ hfl hpf (by omega)

/-- A finished driver loop reports the final sand-set cardinality, which is
at least the starting one. -/
lemma run_eq (pf : Nat) :
    ∀ (lf : Nat) (c : Cave) (n : Nat) (c' : Cave), c.run pf lf = some (n, c') →
      n = c'.sand.length ∧ c.sand.length ≤ c'.sand.length := by
  intro lf
  induction lf with
  | zero =>
    intro c n c' h
    exact absurd h (by simp [Cave.run])
  | succ m ih =>
    intro c n c' h
    rw [show c.run pf (m + 1) =
      (match c.pour_sand pf with
        | none => none
        | some (false, c') => some (c'.sand.length, c')
        | some (true, c') => c'.run pf m) from rfl] at h
    cases hp : c.pour_sand pf with
    | none => rw [hp] at h; simp at h
    | some bc =>
      obtain ⟨b, c0⟩ := bc
      cases b with
      | false =>
        rw [hp] at h
        simp only [Option.some_inj, Prod.mk.injEq] at h
        obtain ⟨hn, hc⟩ := h
        subst hc
        rw [pour_sand_false hp] at hn ⊢
        exact ⟨hn.symm, Nat.le_refl _⟩
      | true =>
        rw [hp] at h
        have hrec := ih c0 n c' h
        exact ⟨hrec.1, Nat.le_trans (pour_sand_mono hp) hrec.2⟩

/-- The cave produced by `from_scan` starts with no sand and no floor. -/
lemma from_scan_fields {scan : List (List Pos)} {c : Cave}
    (h : Cave.from_scan scan = some c) : c.sand = [] ∧ c.floor_y = none := by
  unfold Cave.from_scan at h
  split at h
  · simp at h
  · split at h
    · simp at h
    · simp only [Option.some_inj] at h
      subst h
      exact ⟨rfl, rfl⟩

/-! ## Rasterizer failure lemmas -/

/-- A polyline with a diagonal consecutive pair aborts segment walking. -/
lemma rasterPath_of_hasDiag :
    ∀ (rest : List Pos) (pos : Pos) (acc : List Pos),
      hasDiag (pos :: rest) = true → rasterPath pos rest acc = none := by
  intro rest
  induction rest with
  | nil =>
    intro pos acc h
    simp [hasDiag] at h
  | cons r rs ih =>
    intro pos acc h
    rw [show hasDiag (pos :: r :: rs) = (diagPair pos r || hasDiag (r :: rs))
      from rfl, Bool.or_eq_true] at h
    cases h with
    | inl hd =>
      have hx : pos.x ≠ r.x := by
        have := (Bool.and_eq_true _ _).mp hd
        exact of_decide_eq_true this.1
      have hy : pos.y ≠ r.y := by
        have := (Bool.and_eq_true _ _).mp hd
        exact of_decide_eq_true this.2
      have hseg : segmentPoints pos r = none := by
        unfold segmentPoints
        rw [if_neg (by omega : ¬ pos.y - r.y = 0),
          if_neg (by omega : ¬ pos.x - r.x = 0)]
      unfold rasterPath
      rw [hseg]
    | inr hrec =>
      unfold rasterPath
      cases hseg : segmentPoints pos r with
      | none => rfl
      | some pts => exact ih r _ hrec

/-- A scan containing a diagonal polyline aborts rasterization. -/
lemma rasterScan_of_hasDiag :
    ∀ (scan : List (List Pos)) (acc : List Pos),
      (∃ path, path ∈ scan ∧ hasDiag path = true) →
      rasterScan scan acc = none := by
  intro scan
  induction scan with
  | nil =>
    intro acc h
    obtain ⟨path, hmem, _⟩ := h
    simp at hmem
  | cons hd tl ih =>
    intro acc h
    obtain ⟨path, hmem, hdiag⟩ := h
    unfold rasterScan
    rcases List.mem_cons.mp hmem with rfl | htl
    · cases path with
      | nil => simp [hasDiag] at hdiag
      | cons p0 rest =>
        rw [show rasterPathFull (p0 :: rest) acc = rasterPath p0 rest acc
          from rfl, rasterPath_of_hasDiag rest p0 acc hdiag]
    · cases hfull : rasterPathFull hd acc with
      | none => rfl
      | some acc' => exact ih acc' ⟨path, htl, hdiag⟩

/-- A scan containing an empty polyline aborts rasterization (the Rust code
indexes `rs[0]` unconditionally). -/
lemma rasterScan_of_mem_nil :
    ∀ (scan : List (List Pos)) (acc : List Pos), [] ∈ scan →
      rasterScan scan acc = none := by
  intro scan
  induction scan with
  | nil =>
    intro acc h
    simp at h
  | cons hd tl ih =>
    intro acc h
    unfold rasterScan
    rcases List.mem_cons.mp h with hhd | htl
    · rw [show rasterPathFull hd acc = none from by rw [← hhd]; rfl]
    · cases hfull : rasterPathFull hd acc with
      | none => rfl
      | some acc' => exact ih acc' htl

lemma disjointB_iff (a b : List Pos) :
    disjointB a b = true ↔ ∀ p ∈ a, p ∉ b := by
  unfold disjointB
  rw [List.all_eq_true]
  constructor
  · intro h p hp
    exact of_decide_eq_true (h p hp)
  · intro h p hp
    exact decide_eq_true (h p hp)

/-! ## Claims -/

/-- Claim C1: on the example scan (`498,4 -> 498,6 -> 496,6` and
`503,4 -> 502,4 -> 502,9 -> 494,9`, source `(500,0)`), the open-policy run
settles exactly 24 grains before one is lost, and the floored-policy run
(floor at `y = 11`) ends with exactly 93 settled grains once the source cell
is blocked: `solve` returns the pair `(24, 93)`. -/
theorem C1_solve_example : solve exampleScan 20 200 = some (24, 93) := by
  rfl

/-- Claim C2: in every falling step the three candidate cells are tried in
the fixed order straight-down, down-left, down-right, and the grain moves to
the first free one; when none of the three is free the grain settles at its
current position, which `pour_sand` inserts into the sand set, returning
`true`. -/
theorem C2_step_order (c : Cave) (maxY : Int) (p : Pos) (fuel pf : Nat)
    (q : Pos) (h : p.y + 1 ≤ maxY)
    (hfall : c.fall (c.floor_y.getD c.rocks_max_y) { x := 500, y := 0 } pf =
      .atRest q)
    (hsrc : ({ x := 500, y := 0 } : Pos) ∉ c.sand) :
    c.fall maxY p (fuel + 1) =
      (if c.free { x := p.x, y := p.y + 1 } then
        c.fall maxY { x := p.x, y := p.y + 1 } fuel
      else if c.free { x := p.x - 1, y := p.y + 1 } then
        c.fall maxY { x := p.x - 1, y := p.y + 1 } fuel
      else if c.free { x := p.x + 1, y := p.y + 1 } then
        c.fall maxY { x := p.x + 1, y := p.y + 1 } fuel
      else .atRest p)
    ∧ c.pour_sand pf = some (true, { c with sand := insertPos q c.sand }) := by
  constructor
  · rw [fall_succ, if_neg (by omega : ¬ maxY < p.y + 1)]
  · unfold Cave.pour_sand
    rw [if_neg hsrc, hfall]

/-- Witness for C2 on the example cave: the first grain of the open run
falls from the source and comes to rest at `(500, 8)`. -/
theorem C2_witness :
    exCave.fall 9 { x := 500, y := 0 } 6 =
      (if exCave.free { x := 500, y := 1 } then
        exCave.fall 9 { x := 500, y := 1 } 5
      else if exCave.free { x := 499, y := 1 } then
        exCave.fall 9 { x := 499, y := 1 } 5
      else if exCave.free { x := 501, y := 1 } then
        exCave.fall 9 { x := 501, y := 1 } 5
      else .atRest { x := 500, y := 0 })
    ∧ exCave.pour_sand 15 =
        some (true,
          { exCave with sand := insertPos { x := 500, y := 8 } exCave.sand }) :=
  C2_step_order exCave 9 { x := 500, y := 0 } 5 15 { x := 500, y := 8 }
    (by decide) (by rfl) (by decide)

/-- Claim C3: under the open policy a grain is lost — `pour_sand` returns
`false` with nothing inserted and the cave unchanged — exactly when its
downward motion takes its `y` strictly past `rocks_max_y`; from any cell
whose downward neighbour is at depth `≤ rocks_max_y` the falling loop
continues (moves to the first free candidate or settles), never reporting a
loss at that step. -/
theorem C3_lost_exactly (c : Cave) (p p' : Pos) (fuel pf : Nat)
    (hf : c.floor_y = none)
    (h1 : c.rocks_max_y < p.y + 1)
    (h2 : p'.y + 1 ≤ c.rocks_max_y)
    (hlost : c.fall (c.floor_y.getD c.rocks_max_y) { x := 500, y := 0 } pf =
      .lost) :
    c.fall c.rocks_max_y p (fuel + 1) = .lost
    ∧ c.fall c.rocks_max_y p' (fuel + 1) =
        (if c.free { x := p'.x, y := p'.y + 1 } then
          c.fall c.rocks_max_y { x := p'.x, y := p'.y + 1 } fuel
        else if c.free { x := p'.x - 1, y := p'.y + 1 } then
          c.fall c.rocks_max_y { x := p'.x - 1, y := p'.y + 1 } fuel
        else if c.free { x := p'.x + 1, y := p'.y + 1 } then
          c.fall c.rocks_max_y { x := p'.x + 1, y := p'.y + 1 } fuel
        else .atRest p')
    ∧ c.pour_sand pf = some (false, c) := by
  refine ⟨?_, ?_, ?_⟩
  · rw [fall_succ, if_pos h1, hf]
    rfl
  · rw [fall_succ, if_neg (by omega : ¬ c.rocks_max_y < p'.y + 1)]
  · unfold Cave.pour_sand
    by_cases hs : ({ x := 500, y := 0 } : Pos) ∈ c.sand
    · rw [if_pos hs]
    · rw [if_neg hs, hlost]

/-- Witness for C3 on the saturated open-run cave of the example: the grain
that escapes through the gap is lost once `y` passes 9, positions at depth
`≤ 9` keep falling, and the losing `pour_sand` call leaves the cave as is. -/
theorem C3_witness :
    exCaveAfterOpen.fall 9 { x := 497, y := 9 } 4 = .lost
    ∧ exCaveAfterOpen.fall 9 { x := 500, y := 0 } 4 =
        (if exCaveAfterOpen.free { x := 500, y := 1 } then
          exCaveAfterOpen.fall 9 { x := 500, y := 1 } 3
        else if exCaveAfterOpen.free { x := 499, y := 1 } then
          exCaveAfterOpen.fall 9 { x := 499, y := 1 } 3
        else if exCaveAfterOpen.free { x := 501, y := 1 } then
          exCaveAfterOpen.fall 9 { x := 501, y := 1 } 3
        else .atRest { x := 500, y := 0 })
    ∧ exCaveAfterOpen.pour_sand 15 = some (false, exCaveAfterOpen) :=
  C3_lost_exactly exCaveAfterOpen { x := 497, y := 9 } { x := 500, y := 0 }
    3 15 (by rfl) (by decide) (by decide) (by rfl)

/-- Counterexample to claim C4 as stated: on the example scan the sand set
at the start of the floored-policy run is *not* empty — it still holds the
24 grains settled by the open-policy run. -/
theorem C4_counterexample :
    (exCaveAfterOpen.with_floor).sand.isEmpty = false
    ∧ (exCaveAfterOpen.with_floor).sand.length = 24 := by
  constructor
  · rfl
  · rfl

/-- Claim C4 as amended: `with_floor` only sets `floor_y` to
`rocks_max_y + 2`; the rock set is reused unchanged and the sand set is
carried over from the open-policy run rather than cleared. -/
theorem C4_floor_reuses_state (c : Cave) :
    (c.with_floor).rocks = c.rocks
    ∧ (c.with_floor).sand = c.sand
    ∧ (c.with_floor).rocks_max_y = c.rocks_max_y
    ∧ (c.with_floor).floor_y = some (c.rocks_max_y + 2) :=
  ⟨rfl, rfl, rfl, rfl⟩

/-- Counterexample to claim C5 as stated: with a rock lying directly on the
source, the first floored `pour_sand` call returns `true`, not `false`, and
the run settles 4 grains rather than reporting zero. -/
theorem C5_counterexample :
    ((((Cave.from_scan scanRockOnSource).getD default).with_floor).pour_sand
        20).map Prod.fst = some true
    ∧ ((((Cave.from_scan scanRockOnSource).getD default).with_floor).run
        20 20).map Prod.fst = some 4
    ∧ decide (({ x := 500, y := 0 } : Pos) ∈
        ((Cave.from_scan scanRockOnSource).getD default).rocks) = true := by
  refine ⟨?_, ?_, ?_⟩
  · rfl
  · rfl
  · rfl

/-- Claim C5 as amended: the immediate-rejection test at the start of
`pour_sand` checks only settled sand at the source, not rock; whenever the
source cell is occupied by settled sand the call returns `false` at once,
inserting nothing and leaving the cave unchanged. -/
theorem C5_source_sand_check (c : Cave) (pf : Nat)
    (h : ({ x := 500, y := 0 } : Pos) ∈ c.sand) :
    c.pour_sand pf = some (false, c) := by
  unfold Cave.pour_sand
  rw [if_pos h]

/-- Witness for C5 (amended): a cave whose source cell holds settled sand
rejects the next grain without changing anything. -/
theorem C5_witness :
    (({ rocks := [], rocks_max_y := 0, sand := [{ x := 500, y := 0 }],
        floor_y := none } : Cave).pour_sand 1) =
      some (false,
        { rocks := [], rocks_max_y := 0, sand := [{ x := 500, y := 0 }],
          floor_y := none }) :=
  C5_source_sand_check _ 1 (by decide)

/-- Counterexample to claim C6 as stated: the scan pairing the single-point
polyline `[(0,0)]` with the segment `(5,5)-(5,6)` rasterizes successfully,
but `(0,0)` is *not* among the rock cells — the single-point polyline
contributed nothing (the final rock set has exactly the 2 cells of the other
polyline). -/
theorem C6_counterexample :
    (Cave.from_scan scanSinglePoint).isSome = true
    ∧ decide (({ x := 0, y := 0 } : Pos) ∈
        ((Cave.from_scan scanSinglePoint).getD default).rocks) = false
    ∧ ((Cave.from_scan scanSinglePoint).getD default).rocks.length = 2 := by
  refine ⟨?_, ?_, ?_⟩
  · rfl
  · rfl
  · rfl

/-- Claim C6 as amended: a polyline of exactly one lattice point does not
abort the rasterizer, but it walks no segment and therefore adds no rock
cell at all: the accumulated rock set is returned unchanged. -/
theorem C6_single_point_adds_nothing (p : Pos) (acc : List Pos) :
    rasterPathFull [p] acc = some acc := rfl

/-- Claim C7: a scan containing a polyline segment whose endpoints differ in
both coordinates makes construction fail (the Rust `unreachable!()` panic,
modelled as `none`) before any simulation state is produced. -/
theorem C7_diagonal_aborts (scan : List (List Pos))
    (h : ∃ path, path ∈ scan ∧ hasDiag path = true) :
    Cave.from_scan scan = none := by
  unfold Cave.from_scan
  rw [rasterScan_of_hasDiag scan [] h]

/-- Witness for C7: a 45-degree segment aborts construction. -/
theorem C7_witness :
    Cave.from_scan [[{ x := 0, y := 0 }, { x := 1, y := 1 }]] = none :=
  C7_diagonal_aborts _ ⟨[{ x := 0, y := 0 }, { x := 1, y := 1 }],
    by simp, by decide⟩

/-- Claim C8: for every cave built from a valid scan the open-policy run
terminates (with per-pour fuel `pourFuelOf` and one more loop iteration than
there are unoccupied candidate rest cells), and its settled-grain count is
at most the count reported by any finishing floored-policy continuation of
the same cave (`getD` makes the comparison trivially true when the floored
run is cut off by fuel). -/
theorem C8_open_le_floored (scan : List (List Pos)) (c : Cave)
    (pf2 lf2 : Nat) (h : Cave.from_scan scan = some c) :
    (c.run (pourFuelOf c) (freeCount c + 1)).isSome = true
    ∧ ((c.run (pourFuelOf c) (freeCount c + 1)).getD (0, default)).1 ≤
        (((((c.run (pourFuelOf c) (freeCount c + 1)).getD
              (0, default)).2.with_floor).run pf2 lf2).map Prod.fst).getD
          ((c.run (pourFuelOf c) (freeCount c + 1)).getD (0, default)).1 := by
  obtain ⟨hsand, hfl⟩ := from_scan_fields h
  have hterm : (c.run (pourFuelOf c) (freeCount c + 1)).isSome = true :=
    run_terminates (pourFuelOf c) (freeCount c + 1) c hfl
      (by unfold pourFuelOf; omega) (Nat.lt_succ_self _)
  refine ⟨hterm, ?_⟩
  cases hrun : c.run (pourFuelOf c) (freeCount c + 1) with
  | none => rw [hrun] at hterm; simp at hterm
  | some nc =>
    obtain ⟨n, c1⟩ := nc
    show n ≤ (((c1.with_floor).run pf2 lf2).map Prod.fst).getD n
    cases hrun2 : (c1.with_floor).run pf2 lf2 with
    | none =>
      exact Nat.le_refl n
    | some mc2 =>
      obtain ⟨p2, c2⟩ := mc2
      have h1 := run_eq (pourFuelOf c) (freeCount c + 1) c n c1 hrun
      have h2 := run_eq pf2 lf2 (c1.with_floor) p2 c2 hrun2
      obtain ⟨h2a, h2b⟩ := h2
      have hwf : (c1.with_floor).sand = c1.sand := rfl
      rw [hwf] at h2b
      show n ≤ p2
      omega

/-- Witness for C8 on the example scan: the open run finishes (with 24
grains) and 24 is at most the floored run's 93. -/
theorem C8_witness :
    (exCave.run (pourFuelOf exCave) (freeCount exCave + 1)).isSome = true
    ∧ ((exCave.run (pourFuelOf exCave) (freeCount exCave + 1)).getD
          (0, default)).1 ≤
        (((((exCave.run (pourFuelOf exCave) (freeCount exCave + 1)).getD
              (0, default)).2.with_floor).run 20 200).map Prod.fst).getD
          ((exCave.run (pourFuelOf exCave) (freeCount exCave + 1)).getD
            (0, default)).1 :=
  C8_open_le_floored exampleScan exCave 20 200 (by rfl)

/-- Counterexample to claim C9 as stated: with a rock directly on the source
`(500, 0)` and the floor policy, the run eventually settles a grain onto the
rock cell itself — after the run, `(500, 0)` is in the sand set *and* in the
rock set, so the two sets are not disjoint. -/
theorem C9_counterexample :
    decide (({ x := 500, y := 0 } : Pos) ∈
        (((((Cave.from_scan scanRockOnSource).getD default).with_floor).run
            20 20).getD (0, default)).2.sand) = true
    ∧ decide (({ x := 500, y := 0 } : Pos) ∈
        (((((Cave.from_scan scanRockOnSource).getD default).with_floor).run
            20 20).getD (0, default)).2.rocks) = true := by
  constructor
  · rfl
  · rfl

/-- Claim C9 as amended: construction yields disjoint sets (the sand set
starts empty), and `pour_sand` preserves the disjointness of sand and rocks
under either policy *provided* the source cell `(500, 0)` is not itself a
rock cell and no rock lies below the depth bound (both hold for every cave
`from_scan` builds whose source is rock-free, with or without `with_floor`). -/
theorem C9_disjoint_preserved (scan : List (List Pos)) (c0 c : Cave)
    (pf : Nat) (b : Bool) (c' : Cave)
    (h0 : Cave.from_scan scan = some c0)
    (hsrc : ({ x := 500, y := 0 } : Pos) ∉ c.rocks)
    (hbound : ∀ r ∈ c.rocks, r.y ≤ c.floor_y.getD c.rocks_max_y)
    (hdisj : disjointB c.sand c.rocks = true)
    (hpour : c.pour_sand pf = some (b, c')) :
    disjointB c0.sand c0.rocks = true
    ∧ c'.rocks = c.rocks
    ∧ disjointB c'.sand c'.rocks = true := by
  refine ⟨?_, ?_, ?_⟩
  · rw [(from_scan_fields h0).1]
    rfl
  · cases b with
    | false => rw [pour_sand_false hpour]
    | true =>
      obtain ⟨q, _, _, rfl⟩ := pour_sand_true hpour
      rfl
  · cases b with
    | false =>
      rw [pour_sand_false hpour]
      exact hdisj
    | true =>
      obtain ⟨q, hfall, hs, rfl⟩ := pour_sand_true hpour
      have hq : q ∉ c.rocks :=
        fall_atRest_not_rock c (c.floor_y.getD c.rocks_max_y) hbound pf
          { x := 500, y := 0 } q hfall hsrc
      rw [disjointB_iff] at hdisj ⊢
      intro p hp
      rcases (mem_insertPos q p c.sand).mp hp with rfl | hmem
      · exact hq
      · exact hdisj p hmem

/-- Witness for C9 (amended) on the example cave: the freshly built cave has
disjoint sets and the first pour keeps them disjoint. -/
theorem C9_witness :
    disjointB exCave.sand exCave.rocks = true
    ∧ (((exCave.pour_sand 15).getD (false, default)).2).rocks = exCave.rocks
    ∧ disjointB (((exCave.pour_sand 15).getD (false, default)).2).sand
        (((exCave.pour_sand 15).getD (false, default)).2).rocks = true :=
  C9_disjoint_preserved exampleScan exCave exCave 15 true
    (((exCave.pour_sand 15).getD (false, default)).2)
    (by rfl) (by decide) (by decide) (by rfl) (by rfl)

/-- Claim C10: construction is partial at the public interface: a scan
containing an empty polyline aborts (`rs[0]` is indexed unconditionally), a
scan whose rasterization yields no rock cells aborts (`max` is unwrapped
over an empty set), and every scan that does produce a cave contains at
least one non-empty polyline. -/
theorem C10_construction_requires_rocks (scan1 scan2 scan3 : List (List Pos))
    (c3 : Cave)
    (h1 : [] ∈ scan1)
    (h2 : rasterScan scan2 [] = some [])
    (h3 : Cave.from_scan scan3 = some c3) :
    Cave.from_scan scan1 = none
    ∧ Cave.from_scan scan2 = none
    ∧ scan3.any (fun path => !path.isEmpty) = true := by
  refine ⟨?_, ?_, ?_⟩
  · unfold Cave.from_scan
    rw [rasterScan_of_mem_nil scan1 [] h1]
  · unfold Cave.from_scan
    rw [h2]
    rfl
  · by_contra hno
    rw [Bool.not_eq_true, List.any_eq_false] at hno
    have hall : ∀ path ∈ scan3, path = [] := by
      intro path hp
      rcases path with _ | ⟨a, as⟩
      · rfl
      · exfalso
        have := hno _ hp
        simp at this
    cases scan3 with
    | nil =>
      rw [show Cave.from_scan [] = none from rfl] at h3
      exact Option.noConfusion h3
    | cons hd tl =>
      have hhd : hd = [] := hall hd (List.mem_cons_self hd tl)
      rw [hhd, show Cave.from_scan ([] :: tl) = none from by
        unfold Cave.from_scan
        rw [rasterScan_of_mem_nil _ _ (List.mem_cons_self [] tl)]] at h3
      exact Option.noConfusion h3

/-- Witness for C10: a scan with an empty polyline aborts, a scan with a
lone single-point polyline (no rock cells) aborts, and the example scan has
a non-empty polyline. -/
theorem C10_witness :
    Cave.from_scan [[]] = none
    ∧ Cave.from_scan [[{ x := 7, y := 3 }]] = none
    ∧ exampleScan.any (fun path => !path.isEmpty) = true :=
  C10_construction_requires_rocks [[]] [[{ x := 7, y := 3 }]] exampleScan exCave
    (by simp) (by rfl) (by rfl)

end Day14
